import Mathlib

/-!
Verification of the demo-orchestration coordination pattern of this
repository: the tool `present_demo_to_user` in `app/voice_agent/tools.py`
(identical, up to RPC method names, to `run_demo` in
`app/voice_agent/agent.py`).

The tool launches a browser-automation task in the background
(`asyncio.create_task(run_automation())`), then polls a process-wide
shared slot (`get_live_url()`) every 0.5 seconds for up to 15 seconds,
best-effort relays an obtained live URL to a remote peer over RPC, and
returns a success-shaped result in every case except a synchronous launch
failure.

Embedding notes:
* Elapsed polling time is modelled with `ℚ`.  The Python loop uses floats
  `0.5` and `15`, both dyadic and far below precision limits, so float
  accumulation `waited += 0.5` is exact and `ℚ` is a faithful model.
* The state of the shared slot seen by `get_live_url()` is modelled as a
  function `read : ℚ → Option String` giving the value a read at elapsed
  time `t` observes.  `none` stands for a Python-falsy value (`None` or
  the empty string), matching the `not live_url` / `if live_url:` tests.
* The Python `while` loop is embedded with a fuel parameter.  The loop
  can iterate at most 30 times (`waited` grows by 1/2 each iteration and
  the loop requires `waited < 15`), so any fuel of at least 30 computes
  the loop exactly; `awaitSignal` uses fuel 31 and fuel-irrelevance is
  proved (`pollLoop_fuel_ge`).
-/

/-- `max_wait_time = 15  # seconds` from `present_demo_to_user`. -/
def maxWaitTime : ℚ := 15

/-- `wait_interval = 0.5  # seconds` from `present_demo_to_user`. -/
def waitInterval : ℚ := 1/2

/-- The polling loop of `present_demo_to_user` (tools.py lines 166-173):

    while waited < max_wait_time and not live_url:
        await asyncio.sleep(wait_interval)
        waited += wait_interval
        live_url = get_live_url()
        if live_url:
            break

Each iteration sleeps one interval, advances `waited`, and reads the slot
at the new elapsed time.  The trailing `break` is redundant with the loop
condition and is absorbed into it.  Returns the final `live_url` together
with the accumulated waiting time `waited` (which is also the elapsed
time of the last read performed, since every read happens directly after
`waited` is advanced). -/
def pollLoop (read : ℚ → Option String) : Nat → ℚ → Option String → Option String × ℚ
  | 0, waited, url => (url, waited)
  | fuel + 1, waited, url =>
    if waited < maxWaitTime ∧ url = none then
      pollLoop read fuel (waited + waitInterval) (read (waited + waitInterval))
    else
      (url, waited)

/-- The poller of the orchestration (spec §4.3 `await_signal` with
`timeout_seconds = 15`, `interval_seconds = 0.5`): the loop above started
from `waited = 0`, `live_url = None`, with fuel 31 (strictly more than the
30 iterations the loop can possibly perform). -/
def awaitSignal (read : ℚ → Option String) : Option String × ℚ :=
  pollLoop read 31 0 none

/-- Modelled from the spec: `reset()` clears the SharedSignal slot to
empty (spec §4.1).  The implementation lives in
`app/services/browser_automation` next to `get_live_url` and
`_create_sandboxed_task`, which are imported by `tools.py` and `agent.py`
but absent from the source tree available here. -/
def SharedSignal.reset (_s : Option String) : Option String := none

/-- Modelled from the spec: `write(value)` sets the SharedSignal slot if
`value` is non-empty (spec §4.1); invoked at most once per run by the
engine's creation callback. -/
def SharedSignal.write (s : Option String) (v : String) : Option String :=
  if v ≠ "" then some v else s

/-- Modelled from the spec: the value `get_live_url()` observes at
elapsed time `t` during a run, given that the slot held `prev` when the
run began (possibly a value left by the previous run), the orchestration
performed `reset` before `launch` (spec §4.5 step 1), and this run's
engine callback performs at most one `write` — `wr = some (tw, v)` means
the value `v` is written at time `tw`; `wr = none` means the callback
never fires. -/
def signalDuringRun (prev : Option String) (wr : Option (ℚ × String)) (t : ℚ) :
    Option String :=
  match wr with
  | none => SharedSignal.reset prev
  | some (tw, v) =>
    if tw ≤ t then SharedSignal.write (SharedSignal.reset prev) v
    else SharedSignal.reset prev

/-- Whether `_create_sandboxed_task` / `asyncio.create_task` completed
normally or raised a synchronous exception (with message) before the
background task started. -/
inductive LaunchOutcome where
  | ok : LaunchOutcome
  | raises : String → LaunchOutcome
deriving DecidableEq

/-- Behaviour of the relay environment seen by the delivery block
(tools.py lines 176-197): either no room / no remote participant is
available, or `perform_rpc` raises an exception with the given message,
or the RPC completes. -/
inductive RelayOutcome where
  | noPeer : RelayOutcome
  | rpcError : String → RelayOutcome
  | rpcOk : RelayOutcome
deriving DecidableEq

/-- Shape of the dictionary `present_demo_to_user` returns: either
`{"success": True, "message": ..., "live_url": ...}` or
`{"error": ...}`. -/
inductive ToolResult where
  | ok : String → Option String → ToolResult
  | err : String → ToolResult
deriving DecidableEq

/-- The background wrapper (tools.py lines 151-157):

    async def run_automation():
        try:
            result = await sandboxed_task()
            print(f"Demo automation completed: {result}")
        except Exception as e:
            print(f"Demo automation error: {e}")

The sandboxed task's outcome is modelled as `Except String String`
(error message or result); the wrapper converts either into a log line
and lets nothing escape. -/
def run_automation (task : Except String String) : String :=
  match task with
  | .ok r => "Demo automation completed: " ++ r
  | .error e => "Demo automation error: " ++ e

/-- The delivery block (tools.py lines 176-197): inside a `try`, resolve
the room and a remote participant; if none, log and skip; otherwise call
`perform_rpc`, catching and logging any exception.  Returns whether the
RPC was performed together with the log line produced. -/
def relayDeliver (relay : RelayOutcome) (url : String) : Bool × String :=
  match relay with
  | .noPeer => (false, "No remote participants available for RPC")
  | .rpcError m => (true, "Failed to send demo URL to frontend: " ++ m)
  | .rpcOk => (true, "Successfully sent demo URL to frontend: " ++ url)

/-- Observable outcome of one invocation of `present_demo_to_user`. -/
structure DemoRun where
  result : ToolResult
  pollingEntered : Bool
  pollingWaited : ℚ
  deliveryAttempted : Bool
  rpcPerformed : Bool
  relayLog : Option String
  backgroundLog : Option String
deriving DecidableEq

/-- The orchestration `present_demo_to_user` (tools.py lines 128-210;
`run_demo` in agent.py lines 150-230 is the same code up to the RPC
method name).  The whole body runs inside a `try` whose `except` returns
`{"error": f"Unable to start demo: {str(e)}"}`.  The happy path creates
the background task, polls with `awaitSignal`, best-effort relays a
non-empty URL, and returns success with whatever URL was obtained.
Parameters model the environment: `launch` whether task creation raised
synchronously, `read` the shared slot's content over time, `relay` the
RPC environment, `task` the background task's eventual outcome (which
the orchestration never awaits). -/
def present_demo_to_user (launch : LaunchOutcome) (read : ℚ → Option String)
    (relay : RelayOutcome) (task : Except String String) : DemoRun :=
  match launch with
  | .raises msg =>
    { result := .err ("Unable to start demo: " ++ msg)
      pollingEntered := false
      pollingWaited := 0
      deliveryAttempted := false
      rpcPerformed := false
      relayLog := none
      backgroundLog := none }
  | .ok =>
    match awaitSignal read with
    | (some url, waited) =>
      let d := relayDeliver relay url
      { result := .ok "Here is the demo." (some url)
        pollingEntered := true
        pollingWaited := waited
        deliveryAttempted := true
        rpcPerformed := d.1
        relayLog := some d.2
        backgroundLog := some (run_automation task) }
    | (none, waited) =>
      { result := .ok "Here is the demo." none
        pollingEntered := true
        pollingWaited := waited
        deliveryAttempted := false
        rpcPerformed := false
        relayLog := none
        backgroundLog := some (run_automation task) }

/-- Once `live_url` is non-empty the loop exits at once. -/
lemma pollLoop_some (read : ℚ → Option String) (fuel : Nat) (waited : ℚ) (v : String) :
    pollLoop read fuel waited (some v) = (some v, waited) := by
  cases fuel with
  | zero => rfl
  | succ n => simp [pollLoop]

/-- Adding one unit of fuel changes nothing once the fuel already covers
the remaining distance to the deadline. -/
lemma pollLoop_fuel_succ (read : ℚ → Option String) :
    ∀ (fuel : Nat) (waited : ℚ) url,
      maxWaitTime ≤ waited + (fuel : ℚ) * waitInterval →
      pollLoop read (fuel + 1) waited url = pollLoop read fuel waited url := by
  intro fuel
  induction fuel with
  | zero =>
    intro waited url h
    simp only [Nat.cast_zero, zero_mul, add_zero] at h
    simp [pollLoop, not_lt.mpr h]
  | succ n ih =>
    intro waited url h
    by_cases hc : waited < maxWaitTime ∧ url = none
    · have hstep : maxWaitTime ≤ waited + waitInterval + (n : ℚ) * waitInterval := by
        push_cast at h
        ring_nf at h ⊢
        linarith
      calc pollLoop read (n + 1 + 1) waited url
          = pollLoop read (n + 1) (waited + waitInterval) (read (waited + waitInterval)) := by
            simp [pollLoop, hc]
        _ = pollLoop read n (waited + waitInterval) (read (waited + waitInterval)) :=
            ih _ _ hstep
        _ = pollLoop read (n + 1) waited url := by simp [pollLoop, hc]
    · simp [pollLoop, hc]

/-- Fuel irrelevance: from the initial state, any fuel of at least 30
computes the same result as fuel 30; the loop genuinely terminates. -/
lemma pollLoop_fuel_ge (read : ℚ → Option String) :
    ∀ k, pollLoop read (30 + k) 0 none = pollLoop read 30 0 none := by
  intro k
  induction k with
  | zero => rfl
  | succ n ih =>
    have h : maxWaitTime ≤ (0 : ℚ) + ((30 + n : Nat) : ℚ) * waitInterval := by
      simp only [maxWaitTime, waitInterval]
      push_cast
      ring_nf
      linarith [Nat.cast_nonneg (α := ℚ) n]
    have e : 30 + (n + 1) = (30 + n) + 1 := rfl
    rw [e, pollLoop_fuel_succ read (30 + n) 0 none h, ih]

/-- The accumulated wait never decreases below its entry value. -/
lemma pollLoop_waited_ge (read : ℚ → Option String) :
    ∀ fuel (waited : ℚ) url, waited ≤ (pollLoop read fuel waited url).2 := by
  intro fuel
  induction fuel with
  | zero => intro waited url; simp [pollLoop]
  | succ n ih =>
    intro waited url
    by_cases hc : waited < maxWaitTime ∧ url = none
    · have h1 : waited + waitInterval ≤ (pollLoop read n (waited + waitInterval)
          (read (waited + waitInterval))).2 := ih _ _
      have h2 : waited ≤ waited + waitInterval := by
        simp only [waitInterval]; linarith
      simp only [pollLoop, if_pos hc]
      exact le_trans h2 h1
    · simp [pollLoop, hc]

/-- Starting from an elapsed time of the form `n/2` with `n ≤ 30`, the
accumulated wait on exit never exceeds the 15-second deadline. -/
lemma pollLoop_waited_le (read : ℚ → Option String) :
    ∀ fuel (n : Nat), n ≤ 30 → ∀ url,
      (pollLoop read fuel ((n : ℚ) / 2) url).2 ≤ maxWaitTime := by
  intro fuel
  induction fuel with
  | zero =>
    intro n hn url
    simp only [pollLoop, maxWaitTime]
    have : (n : ℚ) ≤ 30 := by exact_mod_cast hn
    linarith
  | succ f ih =>
    intro n hn url
    by_cases hc : (n : ℚ) / 2 < maxWaitTime ∧ url = none
    · have hn' : n < 30 := by
        have := hc.1
        simp only [maxWaitTime] at this
        by_contra hge
        push_neg at hge
        have : (30 : ℚ) ≤ (n : ℚ) := by exact_mod_cast hge
        linarith
      have hstep : (n : ℚ) / 2 + waitInterval = ((n + 1 : Nat) : ℚ) / 2 := by
        push_cast
        simp only [waitInterval]
        ring
      simp only [pollLoop, if_pos hc, hstep]
      exact ih (n + 1) hn' _
    · simp only [pollLoop, if_neg hc]
      have : (n : ℚ) ≤ 30 := by exact_mod_cast hn
      simp only [maxWaitTime]
      linarith

/-- A signal that is never written drives the loop through every one of
its 30 iterations: starting from elapsed time `m/2` with enough fuel, the
loop returns the empty value with exactly 15 seconds accumulated. -/
lemma pollLoop_never (read : ℚ → Option String) (h : ∀ t, read t = none) :
    ∀ (fuel m : Nat), 30 ≤ m + fuel → m ≤ 30 →
      pollLoop read fuel ((m : ℚ) / 2) none = (none, maxWaitTime) := by
  intro fuel
  induction fuel with
  | zero =>
    intro m h30 hm
    have hm30 : m = 30 := by omega
    subst hm30
    simp only [pollLoop, maxWaitTime]
    norm_num
  | succ f ih =>
    intro m h30 hm
    by_cases hmlt : m < 30
    · have hcast : (m : ℚ) < 30 := by exact_mod_cast hmlt
      have hc : (m : ℚ) / 2 < maxWaitTime ∧ (none : Option String) = none := by
        refine ⟨?_, rfl⟩
        simp only [maxWaitTime]
        linarith
      have hstep : (m : ℚ) / 2 + waitInterval = ((m + 1 : Nat) : ℚ) / 2 := by
        simp only [waitInterval]
        push_cast
        ring
      simp only [pollLoop, hstep, h, hc.1, true_and, and_true, if_true]
      exact ih (m + 1) (by omega) (by omega)
    · have hm30 : m = 30 := by omega
      subst hm30
      have hc : ¬(((30 : Nat) : ℚ) / 2 < maxWaitTime ∧ (none : Option String) = none) := by
        simp only [maxWaitTime]
        norm_num
      simp only [pollLoop, if_neg hc, maxWaitTime]
      norm_num

/-- The loop returns the signal's value at the first check at which the
read is non-empty: if the reads at the first `k` checks after entering
with elapsed time `w` are empty and the read at check `k + 1` yields `v`,
and the deadline has not been passed, the loop returns `v` with elapsed
time `w + (k + 1) · interval` — the time of that very check. -/
lemma pollLoop_first_some (read : ℚ → Option String) (v : String) :
    ∀ (k : Nat) (w : ℚ) (fuel : Nat),
      (∀ j : Nat, j < k → read (w + ((j : ℚ) + 1) * waitInterval) = none) →
      read (w + ((k : ℚ) + 1) * waitInterval) = some v →
      w + (k : ℚ) * waitInterval < maxWaitTime →
      k + 1 ≤ fuel →
      pollLoop read fuel w none = (some v, w + ((k : ℚ) + 1) * waitInterval) := by
  intro k
  induction k with
  | zero =>
    intro w fuel _ hv hk hfuel
    obtain ⟨f, rfl⟩ : ∃ f, fuel = f + 1 := by
      cases fuel with
      | zero => omega
      | succ f => exact ⟨f, rfl⟩
    simp only [Nat.cast_zero, zero_mul, add_zero] at hk
    have hc : w < maxWaitTime ∧ (none : Option String) = none := ⟨hk, rfl⟩
    have hstep : w + waitInterval = w + ((0 : ℚ) + 1) * waitInterval := by ring
    simp only [Nat.cast_zero] at hv ⊢
    simp only [pollLoop, hstep, hv, pollLoop_some]
    simp [hk]
  | succ k ih =>
    intro w fuel hnone hv hk hfuel
    obtain ⟨f, rfl⟩ : ∃ f, fuel = f + 1 := by
      cases fuel with
      | zero => omega
      | succ f => exact ⟨f, rfl⟩
    have hwi : (0 : ℚ) < waitInterval := by simp only [waitInterval]; norm_num
    have hkpos : (0 : ℚ) ≤ ((k : ℚ) + 1) * waitInterval := by
      have : (0 : ℚ) ≤ (k : ℚ) := Nat.cast_nonneg k
      nlinarith
    have hw15 : w < maxWaitTime := by
      have hc1 : (k : ℚ) + 1 = ((k + 1 : Nat) : ℚ) := by push_cast; ring
      nlinarith [hk, hkpos]
    have hc : w < maxWaitTime ∧ (none : Option String) = none := ⟨hw15, rfl⟩
    have hfirst : read (w + waitInterval) = none := by
      have h0 := hnone 0 (Nat.succ_pos k)
      simpa using h0
    simp only [pollLoop, hfirst]
    have hrec := ih (w + waitInterval) f
      (by
        intro j hj
        have hj1 := hnone (j + 1) (by omega)
        have e : w + ((j + 1 : Nat) : ℚ) * waitInterval
            = w + waitInterval + (((j : ℚ)) + 1) * waitInterval - waitInterval := by
          push_cast
          ring
        have e2 : w + waitInterval + ((j : ℚ) + 1) * waitInterval
            = w + (((j : ℚ) + 1) + 1) * waitInterval := by ring
        rw [e2]
        have e3 : w + (((j : ℚ) + 1) + 1) * waitInterval
            = w + (((j + 1 : Nat) : ℚ) + 1) * waitInterval := by push_cast; ring
        rw [e3]
        exact hj1)
      (by
        have e : w + waitInterval + ((k : ℚ) + 1) * waitInterval
            = w + (((k + 1 : Nat) : ℚ) + 1) * waitInterval := by push_cast; ring
        rw [e]
        exact hv)
      (by
        have e : w + waitInterval + (k : ℚ) * waitInterval
            = w + (((k + 1 : Nat) : ℚ)) * waitInterval := by push_cast; ring
        rw [e]
        exact hk)
      (by omega)
    have e : w + waitInterval + ((k : ℚ) + 1) * waitInterval
        = w + (((k + 1 : Nat) : ℚ) + 1) * waitInterval := by push_cast; ring
    rw [e] at hrec
    simp [hw15, hrec]

/-- The value the loop returns is either the value it entered with or a
value actually read from the slot at some elapsed time. -/
lemma pollLoop_result_origin (read : ℚ → Option String) :
    ∀ fuel (waited : ℚ) url,
      (pollLoop read fuel waited url).1 = url ∨
        ∃ t, (pollLoop read fuel waited url).1 = read t := by
  intro fuel
  induction fuel with
  | zero => intro waited url; left; rfl
  | succ n ih =>
    intro waited url
    by_cases hc : waited < maxWaitTime ∧ url = none
    · simp only [pollLoop, if_pos hc]
      rcases ih (waited + waitInterval) (read (waited + waitInterval)) with h | h
      · right; exact ⟨waited + waitInterval, h⟩
      · right; exact h
    · left; simp [pollLoop, hc]

/-- A signal that is never written makes the poller run the full 15
seconds and return empty. -/
lemma awaitSignal_of_unwritten (read : ℚ → Option String)
    (h : ∀ t, read t = none) :
    awaitSignal read = (none, maxWaitTime) := by
  have hl := pollLoop_never read h 31 0 (by omega) (by omega)
  simpa [awaitSignal] using hl

/-- The poller's accumulated wait never exceeds the 15-second budget. -/
lemma awaitSignal_waited_le (read : ℚ → Option String) :
    (awaitSignal read).2 ≤ maxWaitTime := by
  have hl := pollLoop_waited_le read 31 0 (by omega) none
  simpa [awaitSignal] using hl

/-- One unfolding of the loop in the still-empty case. -/
lemma pollLoop_step (read : ℚ → Option String) (fuel : Nat) (waited : ℚ)
    (h : waited < maxWaitTime) :
    pollLoop read (fuel + 1) waited none
      = pollLoop read fuel (waited + waitInterval) (read (waited + waitInterval)) := by
  simp [pollLoop, h]

/-- The poller always performs its first sleep and first read before it
can return anything. -/
lemma awaitSignal_step (read : ℚ → Option String) :
    awaitSignal read = pollLoop read 30 waitInterval (read waitInterval) := by
  have h : (0 : ℚ) < maxWaitTime := by simp only [maxWaitTime]; norm_num
  have hs := pollLoop_step read 30 0 h
  simpa [awaitSignal] using hs

/-- A slot that already holds a value is returned at the first check. -/
lemma awaitSignal_const_some (v : String) :
    awaitSignal (fun _ => some v) = (some v, waitInterval) := by
  rw [awaitSignal_step]
  exact pollLoop_some _ 30 waitInterval v

/-- C1: every orchestration invocation clears the SharedSignal to empty
before launching the background task (spec §4.5 step 1, P1), so for
sequential runs R1 then R2 on the same slot, a value `V1` written by R1
is never observed by any read during R2's polling phase: every state the
slot can be in during R2 differs from `some V1`, and in particular the
value the poller returns is never `V1`. -/
theorem reset_before_launch_hides_previous_value (V1 : String)
    (wr : Option (ℚ × String))
    (hw : ∀ tw v, wr = some (tw, v) → v ≠ V1) :
    (∀ t, signalDuringRun (some V1) wr t ≠ some V1) ∧
    (awaitSignal (signalDuringRun (some V1) wr)).1 ≠ some V1 := by
  have hall : ∀ t, signalDuringRun (some V1) wr t ≠ some V1 := by
    intro t
    cases wr with
    | none => simp [signalDuringRun, SharedSignal.reset]
    | some p =>
      obtain ⟨tw, v⟩ := p
      have hv : v ≠ V1 := hw tw v rfl
      by_cases htw : tw ≤ t
      · simp only [signalDuringRun, if_pos htw, SharedSignal.write, SharedSignal.reset]
        by_cases hv0 : v = ""
        · simp [hv0]
        · simp [hv0, hv]
      · simp [signalDuringRun, htw, SharedSignal.reset]
  refine ⟨hall, ?_⟩
  simp only [awaitSignal]
  rcases pollLoop_result_origin (signalDuringRun (some V1) wr) 31 0 none with h | ⟨t, h⟩
  · rw [h]; simp
  · rw [h]; exact hall t

/-- Witness for C1 at a concrete pair of runs: R1 left "urlA" in the
slot, R2's engine writes "urlB" at t = 2. -/
theorem reset_before_launch_hides_previous_value_witness :
    (∀ t, signalDuringRun (some "urlA") (some (2, "urlB")) t ≠ some "urlA") ∧
    (awaitSignal (signalDuringRun (some "urlA") (some (2, "urlB")))).1 ≠ some "urlA" :=
  reset_before_launch_hides_previous_value "urlA" (some (2, "urlB"))
    (by
      intro tw v h
      simp only [Option.some.injEq, Prod.mk.injEq] at h
      rw [← h.2]
      decide)

/-- C2: when the polling phase times out with the signal still empty, no
relay delivery is attempted and the orchestration still returns the
success-shaped result with a null live URL — a signal timeout is never
reported as an error (spec §4.5 step 4, §7). -/
theorem signal_timeout_success_no_delivery (read : ℚ → Option String)
    (relay : RelayOutcome) (task : Except String String) (w : ℚ)
    (hq : awaitSignal read = (none, w)) :
    (present_demo_to_user .ok read relay task).result = .ok "Here is the demo." none ∧
    (present_demo_to_user .ok read relay task).deliveryAttempted = false := by
  constructor <;> simp [present_demo_to_user, hq]

/-- Witness for C2 on a signal that is never written. -/
theorem signal_timeout_success_no_delivery_witness :
    (present_demo_to_user .ok (fun _ => none) .rpcOk (.ok "done")).result
        = .ok "Here is the demo." none ∧
    (present_demo_to_user .ok (fun _ => none) .rpcOk (.ok "done")).deliveryAttempted
        = false :=
  signal_timeout_success_no_delivery (fun _ => none) .rpcOk (.ok "done") maxWaitTime
    (awaitSignal_of_unwritten (fun _ => none) (fun _ => rfl))

/-- C3: on a signal that is never written the poller returns the empty
value exactly once, after the full 15-second timeout has elapsed — never
early — with its last read occurring exactly at the deadline (at it, not
after it): the returned accumulated wait equals `maxWaitTime` (spec P4
and the numeric policy of §4.3). -/
theorem await_signal_unwritten_full_timeout (read : ℚ → Option String)
    (h : ∀ t, read t = none) :
    awaitSignal read = (none, maxWaitTime) :=
  awaitSignal_of_unwritten read h

/-- Witness for C3 on the constantly-empty signal. -/
theorem await_signal_unwritten_full_timeout_witness :
    awaitSignal (fun _ => none) = (none, maxWaitTime) :=
  await_signal_unwritten_full_timeout (fun _ => none) (fun _ => rfl)

/-- C4: the polling loop terminates for every behaviour of the signal —
any fuel of at least 31 yields the same final state, so the loop reaches
its exit condition rather than recursing forever — and the accumulated
waiting stays within `timeout + interval` (spec P2; in fact within the
timeout itself). -/
theorem poll_loop_terminates_bounded (read : ℚ → Option String) (fuel : Nat)
    (hfuel : 31 ≤ fuel) :
    pollLoop read fuel 0 none = awaitSignal read ∧
    (awaitSignal read).2 ≤ maxWaitTime + waitInterval := by
  constructor
  · obtain ⟨k, rfl⟩ : ∃ k, fuel = 30 + k := ⟨fuel - 30, by omega⟩
    rw [pollLoop_fuel_ge read k]
    simp only [awaitSignal]
    exact (pollLoop_fuel_ge read 1).symm
  · have h := awaitSignal_waited_le read
    have hi : (0 : ℚ) ≤ waitInterval := by simp only [waitInterval]; norm_num
    linarith

/-- Witness for C4 with fuel 40 on the constantly-empty signal. -/
theorem poll_loop_terminates_bounded_witness :
    pollLoop (fun _ => none) 40 0 none = awaitSignal (fun _ => none) ∧
    (awaitSignal (fun _ => none)).2 ≤ maxWaitTime + waitInterval :=
  poll_loop_terminates_bounded (fun _ => none) 40 (by omega)

/-- C5: the poller terminates early with the signal's value at the first
check at which the read is non-empty: if the reads at checks 1..k (times
0.5·j) are empty and the read at check k+1 (time 0.5·(k+1), before the
deadline) yields `v`, the poller returns `v` at exactly that check's
time, not at any later check (spec §4.3, scenario 1). -/
theorem await_signal_returns_at_first_nonempty_check (read : ℚ → Option String)
    (v : String) (k : Nat) (hk : k < 30)
    (hnone : ∀ j, j < k → read (((j : ℚ) + 1) * waitInterval) = none)
    (hv : read (((k : ℚ) + 1) * waitInterval) = some v) :
    awaitSignal read = (some v, ((k : ℚ) + 1) * waitInterval) := by
  have hkq : (k : ℚ) < 30 := by exact_mod_cast hk
  have h := pollLoop_first_some read v k 0 31
    (by intro j hj; simpa using hnone j hj)
    (by simpa using hv)
    (by
      simp only [maxWaitTime, waitInterval, zero_add]
      linarith)
    (by omega)
  simpa [awaitSignal] using h

/-- Witness for C5: the value becomes available at t = 2 s, so checks at
0.5, 1.0, 1.5 read empty and the check at 2.0 returns it. -/
theorem await_signal_returns_at_first_nonempty_check_witness :
    awaitSignal (fun t => if 2 ≤ t then some "url" else none)
      = (some "url", (((3 : Nat) : ℚ) + 1) * waitInterval) :=
  await_signal_returns_at_first_nonempty_check
    (fun t => if 2 ≤ t then some "url" else none) "url" 3 (by omega)
    (by intro j hj; interval_cases j <;> norm_num [waitInterval])
    (by norm_num [waitInterval])

/-- C6: once a live URL was obtained, no relay failure surfaces: the
orchestration returns the success-shaped result carrying the URL for
every relay environment; with no resolvable peer the RPC is skipped, and
a raised RPC exception is caught and only logged (spec §4.4, P3, §7). -/
theorem relay_failure_never_surfaces (read : ℚ → Option String)
    (relay : RelayOutcome) (task : Except String String) (url : String) (w : ℚ)
    (hq : awaitSignal read = (some url, w)) :
    (present_demo_to_user .ok read relay task).result
        = .ok "Here is the demo." (some url) ∧
    (relay = .noPeer → (present_demo_to_user .ok read relay task).rpcPerformed = false) ∧
    (∀ m, relay = .rpcError m →
      (present_demo_to_user .ok read relay task).relayLog
        = some ("Failed to send demo URL to frontend: " ++ m)) := by
  refine ⟨?_, ?_, ?_⟩
  · simp [present_demo_to_user, hq]
  · rintro rfl
    simp [present_demo_to_user, hq, relayDeliver]
  · rintro m rfl
    simp [present_demo_to_user, hq, relayDeliver]

/-- Witness for C6 with an RPC that raises a timeout. -/
theorem relay_failure_never_surfaces_witness :
    (present_demo_to_user .ok (fun _ => some "u") (.rpcError "timeout") (.ok "r")).result
        = .ok "Here is the demo." (some "u") ∧
    ((.rpcError "timeout" : RelayOutcome) = .noPeer →
      (present_demo_to_user .ok (fun _ => some "u") (.rpcError "timeout")
        (.ok "r")).rpcPerformed = false) ∧
    (∀ m, (.rpcError "timeout" : RelayOutcome) = .rpcError m →
      (present_demo_to_user .ok (fun _ => some "u") (.rpcError "timeout")
        (.ok "r")).relayLog
        = some ("Failed to send demo URL to frontend: " ++ m)) :=
  relay_failure_never_surfaces (fun _ => some "u") (.rpcError "timeout") (.ok "r")
    "u" waitInterval (awaitSignal_const_some "u")

/-- C7: a synchronous exception while launching the background task makes
the orchestration respond with the error-shaped result carrying the
message, and the polling loop is never entered (spec §4.5 error
condition, §7 engine-launch failure). -/
theorem launch_failure_error_no_polling (msg : String) (read : ℚ → Option String)
    (relay : RelayOutcome) (task : Except String String) :
    present_demo_to_user (.raises msg) read relay task
      = { result := .err ("Unable to start demo: " ++ msg)
          pollingEntered := false
          pollingWaited := 0
          deliveryAttempted := false
          rpcPerformed := false
          relayLog := none
          backgroundLog := none } := rfl

/-- C8: an exception raised by the automation task after launch is caught
inside the background wrapper itself and converted into a log line (it
never propagates), and the orchestration's result is unchanged by whether
the background task fails or succeeds (spec §4.2, §7 engine-runtime
failure). -/
theorem background_failure_logged_not_propagated (e r : String)
    (read : ℚ → Option String) (relay : RelayOutcome) :
    run_automation (.error e) = "Demo automation error: " ++ e ∧
    (present_demo_to_user .ok read relay (.error e)).result
      = (present_demo_to_user .ok read relay (.ok r)).result := by
  refine ⟨rfl, ?_⟩
  rcases hq : awaitSignal read with ⟨u, w⟩
  cases u <;> simp [present_demo_to_user, hq]

/-- C9: the orchestration never joins the background task: its result is
the same whatever the background task's eventual outcome is (it is never
awaited), and the waiting it performs is bounded by the 15-second polling
timeout (spec P5, §5). -/
theorem orchestration_decoupled_from_background (launch : LaunchOutcome)
    (read : ℚ → Option String) (relay : RelayOutcome)
    (t1 t2 : Except String String) :
    (present_demo_to_user launch read relay t1).result
      = (present_demo_to_user launch read relay t2).result ∧
    (present_demo_to_user launch read relay t1).pollingWaited ≤ maxWaitTime := by
  cases launch with
  | raises msg =>
    refine ⟨rfl, ?_⟩
    simp only [present_demo_to_user, maxWaitTime]
    norm_num
  | ok =>
    rcases hq : awaitSignal read with ⟨u, w⟩
    have hw : w ≤ maxWaitTime := by
      have h := awaitSignal_waited_le read
      rw [hq] at h
      exact h
    cases u <;> simp [present_demo_to_user, hq, hw]

/-- C10: the polling loop sleeps for one full interval before its first
read, so nothing is ever returned with less than 0.5 s of accumulated
waiting, and a value already present at launch time is returned at the
first check, one interval after polling begins. -/
theorem no_return_before_first_interval (read : ℚ → Option String) :
    waitInterval ≤ (awaitSignal read).2 ∧
    ∀ v, read waitInterval = some v → awaitSignal read = (some v, waitInterval) := by
  constructor
  · rw [awaitSignal_step]
    exact pollLoop_waited_ge read 30 waitInterval (read waitInterval)
  · intro v hv
    rw [awaitSignal_step, hv, pollLoop_some]

/-- Witness for C10 on a slot holding "u" from the start. -/
theorem no_return_before_first_interval_witness :
    waitInterval ≤ (awaitSignal (fun _ => some "u")).2 ∧
    awaitSignal (fun _ => some "u") = (some "u", waitInterval) :=
  ⟨(no_return_before_first_interval (fun _ => some "u")).1,
   (no_return_before_first_interval (fun _ => some "u")).2 "u" rfl⟩
